import Mathlib

/-!
Verification of the ingeniamotion cyclic PDO exchange engine specification.

The engine itself (mapping table, cyclic exchange loop, distribution point,
poller, fault relay) is specified in the design document; its definitions
below are shallow embeddings modelled from that specification.  The
`CyGetAdapterInfo.get_adapters_info` Cython wrapper is embedded directly
from its source.
-/

namespace Pdo

/-- Direction of a cyclically exchanged register: input (device to master)
or output (master to device). -/
inductive Direction where
  | input : Direction
  | output : Direction
deriving DecidableEq, Repr

/-- Modelled from the spec: a register as seen by the dictionary
collaborator — an identifier, a byte width (`byte_width(register)`), and
the cyclic-access qualifier (`is_cyclic_capable(register)`).  The real
dictionary lives in the ingenialink collaborator, outside this
subsystem. -/
structure Register where
  uid : Nat
  width : Nat
  cyclicCapable : Bool
deriving DecidableEq, Repr

/-- Modelled from the spec: a MappedRegister entry of the Mapping Table —
the register together with its direction.  The byte width travels with
the register. -/
structure MappedRegister where
  reg : Register
  direction : Direction
deriving DecidableEq, Repr

/-- The Mapping Table: an ordered list of MappedRegister entries, in
insertion order. -/
abbrev MappingTable := List MappedRegister

/-- Modelled from the spec: the error taxonomy of §7, plus `EmptyMapping`
for the unnamed failure of `start()` when the FrameLayout is empty (the
spec requires a non-empty FrameLayout but does not name the error). -/
inductive PdoError where
  | NotCyclicCapable : PdoError
  | FrameOverflow : PdoError
  | AlreadyRunning : PdoError
  | InvalidWatchdogConfig : PdoError
  | RegisterNotMapped : PdoError
  | DeviceTransitionFailed : PdoError
  | WatchdogExpired : PdoError
  | UnexpectedStateChange : PdoError
  | EmptyMapping : PdoError
deriving DecidableEq, Repr

/-- Modelled from the spec: EngineState, one of Idle, Starting, Running,
Stopping, Faulted. -/
inductive EngineState where
  | Idle : EngineState
  | Starting : EngineState
  | Running : EngineState
  | Stopping : EngineState
  | Faulted : EngineState
deriving DecidableEq, Repr

/-- Modelled from the spec: the transport collaborator's frame-size
limits, `max_frame_bytes(direction)`. -/
structure Transport where
  maxInputBytes : Nat
  maxOutputBytes : Nat
deriving DecidableEq, Repr

/-- The transport's maximum frame size for a direction. -/
def Transport.maxFrameBytes (tr : Transport) : Direction → Nat
  | Direction.input => tr.maxInputBytes
  | Direction.output => tr.maxOutputBytes

/-- Total number of bytes the table occupies in one direction: the sum of
the byte widths of the entries mapped in that direction. -/
def totalBytes (d : Direction) (t : MappingTable) : Nat :=
  ((t.filter (fun m => decide (m.direction = d))).map (fun m => m.reg.width)).sum

/-- Modelled from the spec: `add_register(register, direction)` of the
Mapping Table (§4.1).  Fails with `NotCyclicCapable` if the register's
access qualifier forbids cyclic mapping; fails with `FrameOverflow` if
adding it would exceed the transport's maximum frame size for that
direction; fails with `AlreadyRunning` if the engine is not Idle
(checks in the order the spec lists them); otherwise appends the new
MappedRegister to the table. -/
def add_register (tr : Transport) (st : EngineState) (t : MappingTable)
    (r : Register) (d : Direction) : Except PdoError MappingTable :=
  if r.cyclicCapable = false then Except.error PdoError.NotCyclicCapable
  else if tr.maxFrameBytes d < totalBytes d t + r.width then
    Except.error PdoError.FrameOverflow
  else if st ≠ EngineState.Idle then Except.error PdoError.AlreadyRunning
  else Except.ok (t ++ [⟨r, d⟩])

/-- A FrameLayout entry: a MappedRegister with its cumulative byte offset
inside the frame of its direction. -/
structure LayoutEntry where
  entry : MappedRegister
  offset : Nat
deriving DecidableEq, Repr

/-- Assigns cumulative byte offsets to a list of mapped registers,
starting at `off`. -/
def assignOffsets (off : Nat) : List MappedRegister → List LayoutEntry
  | [] => []
  | m :: ms => ⟨m, off⟩ :: assignOffsets (off + m.reg.width) ms

/-- Modelled from the spec: `build_layout()` of the Mapping Table (§4.1)
— a pure function of the current entries producing, per direction, the
ordered concatenation of the MappedRegisters of that direction with
cumulative byte offsets, in insertion order. -/
def build_layout (t : MappingTable) (d : Direction) : List LayoutEntry :=
  assignOffsets 0 (t.filter (fun m => decide (m.direction = d)))

/-- Modelled from the spec: the Mapping Table operations — `add_register`
and `clear` (§4.1).  `clear` resets the table and fails with
`AlreadyRunning` when the engine is not Idle. -/
inductive TableOp where
  | add : Register → Direction → TableOp
  | clear : TableOp
deriving DecidableEq, Repr

/-- Applies one Mapping Table operation; a failing operation leaves the
table unchanged. -/
def applyOp (tr : Transport) (st : EngineState) (t : MappingTable) :
    TableOp → MappingTable
  | TableOp.add r d =>
    match add_register tr st t r d with
    | Except.ok t2 => t2
    | Except.error _ => t
  | TableOp.clear => if st = EngineState.Idle then [] else t

/-- Runs a sequence of Mapping Table operations from the empty table. -/
def runOps (tr : Transport) (st : EngineState) (ops : List TableOp) :
    MappingTable :=
  List.foldl (applyOp tr st) [] ops

/-- Modelled from the spec: a Sample — an immutable record of a monotonic
timestamp and the mapping-ordered sequence of decoded register values. -/
structure Sample where
  timestamp : Nat
  values : List Int
deriving DecidableEq, Repr

/-- Modelled from the spec: a Subscription — a per-poller bounded queue of
Samples (oldest first), an exception slot, and the single-fire guard of
the registered exception callback. -/
structure Subscription where
  capacity : Nat
  queue : List Sample
  fault : Option PdoError
  faultDelivered : Bool
deriving DecidableEq, Repr

/-- Modelled from the spec: WatchdogState — the configured timeout and the
last-refresh timestamp. -/
structure WatchdogState where
  timeout : Nat
  lastRefresh : Nat
deriving DecidableEq, Repr

/-- Modelled from the spec: the engine — EngineState, the Mapping Table,
the Distribution Point's active Subscriptions, and the WatchdogState. -/
structure Engine where
  state : EngineState
  table : MappingTable
  subs : List Subscription
  watchdog : WatchdogState
deriving DecidableEq, Repr

/-- Modelled from the spec: `start(period, watchdog_timeout)` of the
Cyclic Exchange Loop (§4.2).  Requires EngineState = Idle (else the
configuration error `AlreadyRunning`), validates
`watchdog_timeout ≥ period` (else `InvalidWatchdogConfig`), requires a
non-empty FrameLayout, then transitions the device into operational
state via the transport (`devOk` abstracts the transport's
`set_operational` result): on success EngineState becomes Running, on
failure `DeviceTransitionFailed` and the engine stays Idle.  Returns the
configuration error, if any, together with the engine afterwards. -/
def start (e : Engine) (period watchdogTimeout : Nat) (devOk : Bool) :
    Option PdoError × Engine :=
  if e.state ≠ EngineState.Idle then (some PdoError.AlreadyRunning, e)
  else if watchdogTimeout < period then (some PdoError.InvalidWatchdogConfig, e)
  else if e.table.isEmpty then (some PdoError.EmptyMapping, e)
  else if devOk then
    (none, { e with state := EngineState.Running,
                    watchdog := ⟨watchdogTimeout, 0⟩ })
  else (some PdoError.DeviceTransitionFailed, e)

/-- Modelled from the spec: `stop()` of the Cyclic Exchange Loop (§4.2) —
requests the loop to end and transitions EngineState to Idle once the
loop has terminated; calling stop while already Idle is a no-op, and
stop never fails. -/
def stop (e : Engine) : Engine :=
  if e.state = EngineState.Idle then e
  else { e with state := EngineState.Idle }

/-- Modelled from the spec: the Distribution Point's per-subscription
enqueue (§4.3) — a non-blocking enqueue that, on a full queue, drops the
oldest buffered Sample to make room (bounded, newest-biased policy). -/
def pushDrop (c : Nat) (q : List Sample) (x : Sample) : List Sample :=
  if q.length < c then q ++ [x] else q.drop 1 ++ [x]

/-- Publishes one Sample to one Subscription. -/
def subPublish (s : Subscription) (x : Sample) : Subscription :=
  { s with queue := pushDrop s.capacity s.queue x }

/-- Modelled from the spec: `publish(sample)` of the Distribution Point
(§4.3) — a non-blocking enqueue into every active Subscription. -/
def publish (e : Engine) (x : Sample) : Engine :=
  { e with subs := e.subs.map (fun s => subPublish s x) }

/-- Modelled from the spec: a Poller (§4.4) — the positions, inside each
Sample's mapping-ordered value sequence, of the registers it was built
for, together with its Subscription. -/
structure Poller where
  indices : List Nat
  sub : Subscription
deriving DecidableEq, Repr

/-- Decodes from one Sample only the requested registers' slices,
keeping the Sample's timestamp. -/
def decodeSample (idxs : List Nat) (s : Sample) : Nat × List (Option Int) :=
  (s.timestamp, idxs.map (fun i => s.values.get? i))

/-- Modelled from the spec: `read()` of the Poller (§4.4) — drains all
Samples currently buffered in its Subscription, decoding only the
requested registers' slices from each Sample, in arrival order; returns
the decoded sequence together with the Poller whose Subscription is now
drained. -/
def pollerRead (p : Poller) : List (Nat × List (Option Int)) × Poller :=
  (p.sub.queue.map (decodeSample p.indices),
   { p with sub := { p.sub with queue := [] } })

/-- Modelled from the spec: `report(kind, detail)` of the Fault Relay
(§4.5) — first-fault-wins: a report on an already-Faulted engine is
ignored; otherwise the engine becomes Faulted and the fault is written
into every active Subscription's exception slot. -/
def report (e : Engine) (f : PdoError) : Engine :=
  if e.state = EngineState.Faulted then e
  else { e with state := EngineState.Faulted,
                subs := e.subs.map (fun s => { s with fault := some f }) }

/-- Modelled from the spec: one attempt to deliver a Subscription's fault
to its Poller's exception callback under the single-fire guard (§4.4,
§9) — returns whether the callback fired on this attempt. -/
def deliverFault (s : Subscription) : Bool × Subscription :=
  match s.fault with
  | none => (false, s)
  | some _ =>
    if s.faultDelivered then (false, s)
    else (true, { s with faultDelivered := true })

/-- Number of callback firings over `n` successive delivery attempts on
a Subscription. -/
def fireCount : Nat → Subscription → Nat
  | 0, _ => 0
  | n + 1, s =>
    (if (deliverFault s).1 then 1 else 0) + fireCount n (deliverFault s).2

/-- A three-entry mapping table used to instantiate the layout and
invariant theorems on concrete data. -/
def sampleTable : MappingTable :=
  [⟨⟨1, 4, true⟩, Direction.input⟩,
   ⟨⟨2, 4, true⟩, Direction.output⟩,
   ⟨⟨3, 2, true⟩, Direction.input⟩]

end Pdo

namespace CyGetAdapterInfo

/-- The Windows `NO_ERROR` return code of `GetAdaptersInfo`. -/
def NO_ERROR : Nat := 0

/-- The Windows `ERROR_BUFFER_OVERFLOW` return code of
`GetAdaptersInfo`. -/
def ERROR_BUFFER_OVERFLOW : Nat := 111

/-- The environment of one `get_adapters_info` execution: whether each of
the two possible `malloc` calls returns non-NULL, and the return code of
each of the two possible `GetAdaptersInfo` calls. -/
structure AdapterEnv where
  firstAllocOk : Bool
  secondAllocOk : Bool
  firstRet : Nat
  secondRet : Nat
deriving DecidableEq, Repr

/-- The outcome of `get_adapters_info`: the implicit Python return value
`None` (`retNone`, the function body ends without a `return`), a raised
`MemoryError`, or a raised `OSError` carrying the failing return code. -/
inductive CyOutcome where
  | retNone : CyOutcome
  | memoryError : CyOutcome
  | osError : Nat → CyOutcome
deriving DecidableEq, Repr

/-- `malloc`: on success one more buffer is live, on NULL the live count
is unchanged (`none` signals the NULL check firing). -/
def cyMalloc (ok : Bool) (live : Nat) : Option Nat :=
  if ok then some (live + 1) else none

/-- `free`: one fewer live buffer. -/
def cyFree (live : Nat) : Nat := live - 1

/-- Embedded from `CyGetAdapterInfo.get_adapters_info`
(get_adapters_info.pyx): `malloc` an initial `IP_ADAPTER_INFO` buffer
(NULL ⇒ `MemoryError`); call `GetAdaptersInfo`; on
`ERROR_BUFFER_OVERFLOW`, `free` the buffer, `malloc` the enlarged one
(NULL ⇒ `MemoryError`) and call `GetAdaptersInfo` again; if the final
return code is not `NO_ERROR`, `free` the buffer and raise `OSError`;
otherwise `free` the buffer and fall off the end of the function.  The
second component is the number of live buffers at exit. -/
def get_adapters_info (env : AdapterEnv) : CyOutcome × Nat :=
  match cyMalloc env.firstAllocOk 0 with
  | none => (CyOutcome.memoryError, 0)
  | some live1 =>
    if env.firstRet = ERROR_BUFFER_OVERFLOW then
      let live2 := cyFree live1
      match cyMalloc env.secondAllocOk live2 with
      | none => (CyOutcome.memoryError, live2)
      | some live3 =>
        if env.secondRet ≠ NO_ERROR then
          (CyOutcome.osError env.secondRet, cyFree live3)
        else (CyOutcome.retNone, cyFree live3)
    else if env.firstRet ≠ NO_ERROR then
      (CyOutcome.osError env.firstRet, cyFree live1)
    else (CyOutcome.retNone, cyFree live1)

/-- The return code of the last `GetAdaptersInfo` call the function
makes: the second call when the first reported `ERROR_BUFFER_OVERFLOW`,
the first call otherwise. -/
def finalRet (env : AdapterEnv) : Nat :=
  if env.firstRet = ERROR_BUFFER_OVERFLOW then env.secondRet
  else env.firstRet

end CyGetAdapterInfo

namespace Pdo

theorem assignOffsets_map_entry (off : Nat) (l : List MappedRegister) :
    (assignOffsets off l).map LayoutEntry.entry = l := by
  induction l generalizing off with
  | nil => rfl
  | cons m ms ih => simp [assignOffsets, ih]

theorem assignOffsets_get_offset (l : List MappedRegister) (off i : Nat)
    (h : i < (assignOffsets off l).length) :
    ((assignOffsets off l).get ⟨i, h⟩).offset =
      off + ((l.take i).map (fun m => m.reg.width)).sum := by
  induction l generalizing off i with
  | nil => simp [assignOffsets] at h
  | cons m ms ih =>
    cases i with
    | zero => simp [assignOffsets]
    | succ j =>
      have h2 : j < (assignOffsets (off + m.reg.width) ms).length := by
        simpa [assignOffsets] using h
      have hih := ih (off + m.reg.width) j h2
      simp only [assignOffsets, List.get_cons_succ] at hih ⊢
      rw [hih]
      simp [Nat.add_assoc]

theorem totalBytes_append_single (d : Direction) (t : MappingTable)
    (m : MappedRegister) :
    totalBytes d (t ++ [m]) =
      totalBytes d t + (if m.direction = d then m.reg.width else 0) := by
  by_cases h : m.direction = d <;>
    simp [totalBytes, List.filter_append, h]

theorem applyOp_preserves_bound (tr : Transport) (st : EngineState)
    (t : MappingTable) (hinv : ∀ d, totalBytes d t ≤ tr.maxFrameBytes d)
    (op : TableOp) :
    ∀ d, totalBytes d (applyOp tr st t op) ≤ tr.maxFrameBytes d := by
  intro d
  cases op with
  | clear =>
    by_cases h : st = EngineState.Idle
    · simp [applyOp, h, totalBytes]
    · simpa [applyOp, h] using hinv d
  | add r d2 =>
    by_cases hc : r.cyclicCapable = false
    · simpa [applyOp, add_register, hc] using hinv d
    · by_cases ho : tr.maxFrameBytes d2 < totalBytes d2 t + r.width
      · simpa [applyOp, add_register, hc, ho] using hinv d
      · by_cases hs : st = EngineState.Idle
        · have happ : applyOp tr st t (TableOp.add r d2) = t ++ [⟨r, d2⟩] := by
            simp [applyOp, add_register, hc, ho, hs]
          rw [happ, totalBytes_append_single]
          by_cases hd : (⟨r, d2⟩ : MappedRegister).direction = d
          · have hd2 : d2 = d := hd
            subst hd2
            have hle : totalBytes d2 t + r.width ≤ tr.maxFrameBytes d2 :=
              Nat.le_of_not_lt ho
            simpa [hd] using hle
          · simpa [hd] using hinv d
        · simpa [applyOp, add_register, hc, ho, hs] using hinv d

theorem foldl_applyOp_bound (tr : Transport) (st : EngineState)
    (ops : List TableOp) :
    ∀ t, (∀ d, totalBytes d t ≤ tr.maxFrameBytes d) →
      ∀ d, totalBytes d (List.foldl (applyOp tr st) t ops) ≤
        tr.maxFrameBytes d := by
  induction ops with
  | nil => intro t h d; exact h d
  | cons op rest ih =>
    intro t h d
    exact ih (applyOp tr st t op) (applyOp_preserves_bound tr st t h op) d

/-- C1: adding a register whose access qualifier is not cyclic-capable
fails with `NotCyclicCapable`, regardless of the contents of the Mapping
Table (and of the transport limits and engine state). -/
theorem add_register_not_cyclic_capable (tr : Transport) (st : EngineState)
    (t : MappingTable) (r : Register) (d : Direction)
    (h : r.cyclicCapable = false) :
    add_register tr st t r d = Except.error PdoError.NotCyclicCapable := by
  simp [add_register, h]

/-- Witness for C1: a concrete non-cyclic-capable register is rejected. -/
theorem add_register_not_cyclic_capable_witness :
    (Register.mk 7 4 false).cyclicCapable = false ∧
      add_register ⟨64, 64⟩ EngineState.Idle [] (Register.mk 7 4 false)
        Direction.input = Except.error PdoError.NotCyclicCapable :=
  ⟨by decide, add_register_not_cyclic_capable ⟨64, 64⟩ EngineState.Idle []
    (Register.mk 7 4 false) Direction.input (by decide)⟩

/-- C2: for every period and watchdog timeout with
`watchdog_timeout < period`, `start` on an Idle engine fails with
`InvalidWatchdogConfig` and leaves the engine — in particular its
EngineState, still Idle — unchanged. -/
theorem start_invalid_watchdog (e : Engine) (period watchdogTimeout : Nat)
    (devOk : Bool) (hIdle : e.state = EngineState.Idle)
    (hLt : watchdogTimeout < period) :
    start e period watchdogTimeout devOk =
      (some PdoError.InvalidWatchdogConfig, e) ∧
      (start e period watchdogTimeout devOk).2.state = EngineState.Idle := by
  have hstart : start e period watchdogTimeout devOk =
      (some PdoError.InvalidWatchdogConfig, e) := by
    simp [start, hIdle, hLt]
  exact ⟨hstart, by rw [hstart]; exact hIdle⟩

/-- Witness for C2: starting a concrete Idle engine with
`watchdog_timeout = 3 < 10 = period` fails with `InvalidWatchdogConfig`
and the engine stays Idle. -/
theorem start_invalid_watchdog_witness :
    (Engine.mk EngineState.Idle [] [] ⟨0, 0⟩).state = EngineState.Idle ∧
      (3 : Nat) < 10 ∧
      (start (Engine.mk EngineState.Idle [] [] ⟨0, 0⟩) 10 3 true =
          (some PdoError.InvalidWatchdogConfig,
            Engine.mk EngineState.Idle [] [] ⟨0, 0⟩) ∧
        (start (Engine.mk EngineState.Idle [] [] ⟨0, 0⟩) 10 3 true).2.state =
          EngineState.Idle) :=
  ⟨by decide, by decide,
    start_invalid_watchdog (Engine.mk EngineState.Idle [] [] ⟨0, 0⟩) 10 3 true
      (by decide) (by decide)⟩

/-- C8: `stop` is idempotent — calling `stop` when the engine is already
Idle is a no-op (it returns the engine unchanged, and it cannot fail
since `stop` is total), so two consecutive `stop` calls leave the engine
exactly as one does. -/
theorem stop_idempotent (e : Engine) :
    (e.state = EngineState.Idle → stop e = e) ∧ stop (stop e) = stop e := by
  constructor
  · intro h
    simp [stop, h]
  · by_cases h : e.state = EngineState.Idle
    · simp [stop, h]
    · simp [stop, h]

/-- Witness for C8: on a concrete Idle engine, `stop` is a no-op and a
second `stop` changes nothing. -/
theorem stop_idempotent_witness :
    stop (Engine.mk EngineState.Idle [] [] ⟨0, 0⟩) =
        Engine.mk EngineState.Idle [] [] ⟨0, 0⟩ ∧
      stop (stop (Engine.mk EngineState.Idle [] [] ⟨0, 0⟩)) =
        stop (Engine.mk EngineState.Idle [] [] ⟨0, 0⟩) :=
  ⟨(stop_idempotent (Engine.mk EngineState.Idle [] [] ⟨0, 0⟩)).1 (by decide),
    (stop_idempotent (Engine.mk EngineState.Idle [] [] ⟨0, 0⟩)).2⟩

/-- C3: `build_layout` is a pure function of the current entries whose
per-direction ordering equals insertion order (a successful
`add_register` appends its entry at the end of the table, and the layout
of a direction lists exactly that direction's entries in table order),
and each layout entry's byte offset is the sum of the byte widths of the
entries inserted before it in the same direction, so the assigned byte
ranges do not overlap. -/
theorem build_layout_pure_ordered (t : MappingTable) (d : Direction) :
    (build_layout t d).map LayoutEntry.entry =
        t.filter (fun m => decide (m.direction = d)) ∧
      (∀ i (h : i < (build_layout t d).length),
        ((build_layout t d).get ⟨i, h⟩).offset =
          (((t.filter (fun m => decide (m.direction = d))).take i).map
            (fun m => m.reg.width)).sum) ∧
      ∀ tr st r d2 t2, add_register tr st t r d2 = Except.ok t2 →
        t2 = t ++ [⟨r, d2⟩] := by
  refine ⟨assignOffsets_map_entry 0 _, ?_, ?_⟩
  · intro i h
    simpa using assignOffsets_get_offset
      (t.filter (fun m => decide (m.direction = d))) 0 i h
  · intro tr st r d2 t2 hok
    unfold add_register at hok
    by_cases hc : r.cyclicCapable = false
    · simp [hc] at hok
    · by_cases ho : tr.maxFrameBytes d2 < totalBytes d2 t + r.width
      · simp [hc, ho] at hok
      · by_cases hs : st = EngineState.Idle
        · simp [hc, ho, hs] at hok
          exact hok.symm
        · simp [hc, ho, hs] at hok

/-- Witness for C3: on a concrete three-entry table, the input layout
keeps insertion order and the second input entry sits at offset 4, the
width of the input entry before it. -/
theorem build_layout_pure_ordered_witness :
    (build_layout sampleTable Direction.input).map LayoutEntry.entry =
        sampleTable.filter (fun m => decide (m.direction = Direction.input)) ∧
      1 < (build_layout sampleTable Direction.input).length ∧
      ((build_layout sampleTable Direction.input).get ⟨1, by decide⟩).offset =
        (((sampleTable.filter
            (fun m => decide (m.direction = Direction.input))).take 1).map
          (fun m => m.reg.width)).sum :=
  ⟨(build_layout_pure_ordered sampleTable Direction.input).1, by decide,
    (build_layout_pure_ordered sampleTable Direction.input).2.1 1 (by decide)⟩

/-- C4: after every sequence of Mapping Table operations starting from
the empty table, the total bytes of each direction stay at most the
transport's maximum frame size for that direction; and an `add_register`
call whose register is cyclic-capable but whose width would exceed the
limit fails with `FrameOverflow` and leaves the table unchanged. -/
theorem frame_size_invariant (tr : Transport) (st : EngineState)
    (ops : List TableOp) (d : Direction) (t : MappingTable) (r : Register) :
    totalBytes d (runOps tr st ops) ≤ tr.maxFrameBytes d ∧
      (r.cyclicCapable = true →
        tr.maxFrameBytes d < totalBytes d t + r.width →
        add_register tr st t r d = Except.error PdoError.FrameOverflow ∧
          applyOp tr st t (TableOp.add r d) = t) := by
  constructor
  · exact foldl_applyOp_bound tr st ops []
      (fun d2 => by simp [totalBytes]) d
  · intro hc ho
    have herr : add_register tr st t r d = Except.error PdoError.FrameOverflow := by
      simp [add_register, hc, ho]
    exact ⟨herr, by simp [applyOp, herr]⟩

/-- Witness for C4: with 4-byte frames, adding a 3-byte then a 2-byte
input register keeps the total within 4 bytes (the second add is
rejected), and the overflowing add fails with `FrameOverflow` leaving
the one-entry table unchanged. -/
theorem frame_size_invariant_witness :
    (Register.mk 2 2 true).cyclicCapable = true ∧
      (Transport.mk 4 4).maxFrameBytes Direction.input <
        totalBytes Direction.input [⟨⟨1, 3, true⟩, Direction.input⟩] +
          (Register.mk 2 2 true).width ∧
      (totalBytes Direction.input
          (runOps ⟨4, 4⟩ EngineState.Idle
            [TableOp.add ⟨1, 3, true⟩ Direction.input,
             TableOp.add ⟨2, 2, true⟩ Direction.input]) ≤
          (Transport.mk 4 4).maxFrameBytes Direction.input ∧
        (add_register ⟨4, 4⟩ EngineState.Idle
            [⟨⟨1, 3, true⟩, Direction.input⟩] (Register.mk 2 2 true)
            Direction.input = Except.error PdoError.FrameOverflow ∧
          applyOp ⟨4, 4⟩ EngineState.Idle [⟨⟨1, 3, true⟩, Direction.input⟩]
            (TableOp.add (Register.mk 2 2 true) Direction.input) =
            [⟨⟨1, 3, true⟩, Direction.input⟩])) :=
  ⟨by decide, by decide,
    (frame_size_invariant ⟨4, 4⟩ EngineState.Idle
      [TableOp.add ⟨1, 3, true⟩ Direction.input,
       TableOp.add ⟨2, 2, true⟩ Direction.input] Direction.input
      [⟨⟨1, 3, true⟩, Direction.input⟩] (Register.mk 2 2 true)).1,
    (frame_size_invariant ⟨4, 4⟩ EngineState.Idle
      [TableOp.add ⟨1, 3, true⟩ Direction.input,
       TableOp.add ⟨2, 2, true⟩ Direction.input] Direction.input
      [⟨⟨1, 3, true⟩, Direction.input⟩] (Register.mk 2 2 true)).2
      (by decide) (by decide)⟩

theorem foldl_pushDrop_eq_drop (c : Nat) (hc : 0 < c) :
    ∀ (xs q : List Sample), q.length ≤ c →
      List.foldl (pushDrop c) q xs =
        (q ++ xs).drop (q.length + xs.length - c) := by
  intro xs
  induction xs with
  | nil =>
    intro q hq
    simp [Nat.sub_eq_zero_of_le hq]
  | cons x xs ih =>
    intro q hq
    by_cases h : q.length < c
    · have hq2 : (q ++ [x]).length ≤ c := by
        simpa using h
      have := ih (q ++ [x]) hq2
      simp only [List.foldl_cons, pushDrop, if_pos h]
      rw [this]
      simp [Nat.add_assoc, Nat.add_comm 1 xs.length]
    · have hqc : q.length = c := Nat.le_antisymm hq (Nat.le_of_not_lt h)
      cases q with
      | nil =>
        exfalso
        rw [List.length_nil] at hqc
        omega
      | cons a t =>
        have ht : (t ++ [x]).length ≤ c := by
          simp at hqc ⊢
          omega
        have := ih (t ++ [x]) ht
        simp only [List.foldl_cons, pushDrop, if_neg h, List.drop_succ_cons,
          List.drop_zero]
        rw [this]
        have hlen : (a :: t).length + (x :: xs).length - c =
            ((t ++ [x]).length + xs.length - c) + 1 := by
          simp at hqc ⊢
          omega
        rw [hlen]
        simp [List.drop_succ_cons, List.append_assoc]

theorem foldl_subPublish_queue (xs : List Sample) :
    ∀ s : Subscription,
      (List.foldl subPublish s xs).queue =
          List.foldl (pushDrop s.capacity) s.queue xs ∧
        (List.foldl subPublish s xs).capacity = s.capacity := by
  induction xs with
  | nil => intro s; exact ⟨rfl, rfl⟩
  | cons x xs ih =>
    intro s
    have := ih (subPublish s x)
    simpa [subPublish] using this

/-- C5: publishing a sequence of Samples into a never-drained
Subscription of positive capacity `c` never blocks (publish is total and
drops the oldest buffered Sample when full), and once more than `c`
Samples have been published exactly the `c` most recently published
Samples remain buffered, in publication order. -/
theorem subscription_keeps_latest (c : Nat) (xs : List Sample) (hc : 0 < c)
    (hlen : c < xs.length) :
    (List.foldl subPublish (Subscription.mk c [] none false) xs).queue =
        xs.drop (xs.length - c) ∧
      (List.foldl subPublish (Subscription.mk c [] none false) xs).queue.length
        = c := by
  have hq := (foldl_subPublish_queue xs (Subscription.mk c [] none false)).1
  have hd := foldl_pushDrop_eq_drop c hc xs [] (by simp)
  simp only [hq]
  simp only [List.nil_append, List.length_nil, Nat.zero_add] at hd
  refine ⟨hd, ?_⟩
  rw [hd]
  rw [List.length_drop]
  omega

/-- Witness for C5: publishing three concrete Samples into an empty
capacity-2 Subscription leaves exactly the last two, in order. -/
theorem subscription_keeps_latest_witness :
    (0 : Nat) < 2 ∧
      2 < ([⟨0, [1]⟩, ⟨1, [2]⟩, ⟨2, [3]⟩] : List Sample).length ∧
      ((List.foldl subPublish (Subscription.mk 2 [] none false)
            ([⟨0, [1]⟩, ⟨1, [2]⟩, ⟨2, [3]⟩] : List Sample)).queue =
          ([⟨0, [1]⟩, ⟨1, [2]⟩, ⟨2, [3]⟩] : List Sample).drop
            (([⟨0, [1]⟩, ⟨1, [2]⟩, ⟨2, [3]⟩] : List Sample).length - 2) ∧
        (List.foldl subPublish (Subscription.mk 2 [] none false)
            ([⟨0, [1]⟩, ⟨1, [2]⟩, ⟨2, [3]⟩] : List Sample)).queue.length = 2) :=
  ⟨by decide, by decide,
    subscription_keeps_latest 2 ([⟨0, [1]⟩, ⟨1, [2]⟩, ⟨2, [3]⟩] : List Sample)
      (by decide) (by decide)⟩

/-- C6: `read()` returns exactly the Samples currently buffered in the
Poller's Subscription, decoded for the requested registers only, in
arrival order; it never blocks (it is a total function), it returns the
empty sequence when nothing is buffered, and after a `read()` the
Subscription is drained so a later `read()` never re-delivers a drained
Sample. -/
theorem poller_read_drains (p : Poller) :
    (pollerRead p).1 = p.sub.queue.map (decodeSample p.indices) ∧
      ((pollerRead p).2).sub.queue = [] ∧
      (pollerRead ((pollerRead p).2)).1 = [] ∧
      (p.sub.queue = [] → (pollerRead p).1 = []) := by
  refine ⟨rfl, rfl, rfl, ?_⟩
  intro h
  simp [pollerRead, h]

/-- Witness for C6: a concrete Poller with two buffered Samples reads
them in order, decoded at its requested index, and is left drained. -/
theorem poller_read_drains_witness :
    (pollerRead (Poller.mk [0] ⟨4, [⟨0, [5]⟩, ⟨1, [6]⟩], none, false⟩)).1 =
        ([⟨0, [5]⟩, ⟨1, [6]⟩] : List Sample).map (decodeSample [0]) ∧
      ((pollerRead (Poller.mk [0]
          ⟨4, [⟨0, [5]⟩, ⟨1, [6]⟩], none, false⟩)).2).sub.queue = [] ∧
      (pollerRead ((pollerRead (Poller.mk [0]
          ⟨4, [⟨0, [5]⟩, ⟨1, [6]⟩], none, false⟩)).2)).1 = [] ∧
      (((Poller.mk [0] ⟨4, [⟨0, [5]⟩, ⟨1, [6]⟩], none, false⟩) :
          Poller).sub.queue = [] →
        (pollerRead (Poller.mk [0]
          ⟨4, [⟨0, [5]⟩, ⟨1, [6]⟩], none, false⟩)).1 = []) :=
  poller_read_drains (Poller.mk [0] ⟨4, [⟨0, [5]⟩, ⟨1, [6]⟩], none, false⟩)

theorem fireCount_of_delivered (n : Nat) :
    ∀ s : Subscription, s.faultDelivered = true → fireCount n s = 0 := by
  induction n with
  | zero => intro s _; rfl
  | succ m ih =>
    intro s h
    have hdf : deliverFault s = (false, s) := by
      unfold deliverFault
      cases s.fault with
      | none => rfl
      | some f => simp [h]
    simp [fireCount, hdf, ih s h]

theorem fireCount_le_one (n : Nat) : ∀ s : Subscription, fireCount n s ≤ 1 := by
  induction n with
  | zero => intro s; exact Nat.zero_le 1
  | succ m ih =>
    intro s
    cases hf : s.fault with
    | none =>
      have hdf : deliverFault s = (false, s) := by
        unfold deliverFault
        rw [hf]
      simpa [fireCount, hdf] using ih s
    | some f =>
      by_cases hd : s.faultDelivered = true
      · have hdf : deliverFault s = (false, s) := by
          unfold deliverFault
          rw [hf]
          simp [hd]
        simpa [fireCount, hdf] using ih s
      · have hdf : deliverFault s = (true, { s with faultDelivered := true }) := by
          unfold deliverFault
          rw [hf]
          simp [hd]
        have hz : fireCount m { s with faultDelivered := true } = 0 :=
          fireCount_of_delivered m _ rfl
        simp [fireCount, hdf, hz]

/-- C7: within one engine lifetime only the first fault report has
effect — a report on an already-Faulted engine is ignored, so reporting
twice equals reporting once, while the first report on a non-Faulted
engine moves it to Faulted and sets every attached Subscription's
exception slot — and the single-fire guard makes every Subscription's
callback fire at most once over any number of delivery attempts, and
exactly once when a fault is present and not yet delivered. -/
theorem fault_relay_first_wins (e : Engine) (f g : PdoError)
    (s : Subscription) (n : Nat) :
    report (report e f) g = report e f ∧
      (e.state ≠ EngineState.Faulted →
        (report e f).state = EngineState.Faulted ∧
          ∀ s2 ∈ (report e f).subs, s2.fault = some f) ∧
      fireCount n s ≤ 1 ∧
      (s.fault = some f → s.faultDelivered = false → 1 ≤ n →
        fireCount n s = 1) := by
  refine ⟨?_, ?_, fireCount_le_one n s, ?_⟩
  · by_cases h : e.state = EngineState.Faulted
    · simp [report, h]
    · simp [report, h]
  · intro h
    constructor
    · simp [report, h]
    · intro s2 hs2
      simp [report, h] at hs2
      obtain ⟨s3, _, hs3⟩ := hs2
      rw [← hs3]
  · cases n with
    | zero => intro _ _ h1; exact absurd h1 (by decide)
    | succ m =>
      intro hf hd _
      have hdf : deliverFault s = (true, { s with faultDelivered := true }) := by
        unfold deliverFault
        rw [hf]
        simp [hd]
      have hz : fireCount m { s with faultDelivered := true } = 0 :=
        fireCount_of_delivered m _ rfl
      simp [fireCount, hdf, hz]

/-- Witness for C7: on a concrete Running engine with one fresh
Subscription, a second report after the first is ignored, the first
report faults the engine and sets the Subscription's exception slot, and
three delivery attempts on the faulted Subscription fire exactly once. -/
theorem fault_relay_first_wins_witness :
    (Engine.mk EngineState.Running [] [⟨4, [], none, false⟩] ⟨10, 0⟩).state ≠
        EngineState.Faulted ∧
      (Subscription.mk 4 [] (some PdoError.WatchdogExpired) false).fault =
        some PdoError.WatchdogExpired ∧
      (Subscription.mk 4 [] (some PdoError.WatchdogExpired) false).faultDelivered
        = false ∧
      (1 : Nat) ≤ 3 ∧
      (report (report (Engine.mk EngineState.Running [] [⟨4, [], none, false⟩]
            ⟨10, 0⟩) PdoError.WatchdogExpired) PdoError.DeviceTransitionFailed =
          report (Engine.mk EngineState.Running [] [⟨4, [], none, false⟩]
            ⟨10, 0⟩) PdoError.WatchdogExpired ∧
        fireCount 3 (Subscription.mk 4 [] (some PdoError.WatchdogExpired) false)
          ≤ 1 ∧
        fireCount 3 (Subscription.mk 4 [] (some PdoError.WatchdogExpired) false)
          = 1) := by
  have h := fault_relay_first_wins
    (Engine.mk EngineState.Running [] [⟨4, [], none, false⟩] ⟨10, 0⟩)
    PdoError.WatchdogExpired PdoError.DeviceTransitionFailed
    (Subscription.mk 4 [] (some PdoError.WatchdogExpired) false) 3
  exact ⟨by decide, by decide, by decide, by decide,
    h.1, h.2.2.1, h.2.2.2 rfl rfl (by decide)⟩

end Pdo

namespace CyGetAdapterInfo

/-- C9: whenever the `GetAdaptersInfo` call that completes the function
succeeds (directly, or after the one enlarged-buffer retry following
`ERROR_BUFFER_OVERFLOW`), `get_adapters_info` returns `None` — it builds
no adapter data at all — and the adapter buffer has been freed (no live
buffer remains at exit). -/
theorem get_adapters_info_returns_none (env : AdapterEnv)
    (halloc : env.firstAllocOk = true)
    (hsucc : env.firstRet = NO_ERROR ∨
      (env.firstRet = ERROR_BUFFER_OVERFLOW ∧ env.secondAllocOk = true ∧
        env.secondRet = NO_ERROR)) :
    get_adapters_info env = (CyOutcome.retNone, 0) := by
  obtain ⟨a1, a2, r1, r2⟩ := env
  rcases hsucc with h1 | ⟨h1, h2, h3⟩
  · simp only at halloc h1
    subst halloc h1
    simp [get_adapters_info, cyMalloc, cyFree, NO_ERROR, ERROR_BUFFER_OVERFLOW]
  · simp only at halloc h1 h2 h3
    subst halloc h1 h2 h3
    simp [get_adapters_info, cyMalloc, cyFree, NO_ERROR, ERROR_BUFFER_OVERFLOW]

/-- Witness for C9: with both allocations succeeding and the retry path
taken (`ERROR_BUFFER_OVERFLOW` then `NO_ERROR`), the function returns
`None` with no live buffer. -/
theorem get_adapters_info_returns_none_witness :
    (AdapterEnv.mk true true ERROR_BUFFER_OVERFLOW NO_ERROR).firstAllocOk
        = true ∧
      ((AdapterEnv.mk true true ERROR_BUFFER_OVERFLOW NO_ERROR).firstRet
          = NO_ERROR ∨
        ((AdapterEnv.mk true true ERROR_BUFFER_OVERFLOW NO_ERROR).firstRet
            = ERROR_BUFFER_OVERFLOW ∧
          (AdapterEnv.mk true true ERROR_BUFFER_OVERFLOW NO_ERROR).secondAllocOk
            = true ∧
          (AdapterEnv.mk true true ERROR_BUFFER_OVERFLOW NO_ERROR).secondRet
            = NO_ERROR)) ∧
      get_adapters_info (AdapterEnv.mk true true ERROR_BUFFER_OVERFLOW NO_ERROR)
        = (CyOutcome.retNone, 0) :=
  ⟨rfl, Or.inr ⟨rfl, rfl, rfl⟩,
    get_adapters_info_returns_none
      (AdapterEnv.mk true true ERROR_BUFFER_OVERFLOW NO_ERROR) rfl
      (Or.inr ⟨rfl, rfl, rfl⟩)⟩

/-- C10: `get_adapters_info` raises `MemoryError` exactly when a `malloc`
on its executed path returns NULL; it raises `OSError` exactly when the
allocations succeed and the final `GetAdaptersInfo` call (after at most
one enlarged-buffer retry on `ERROR_BUFFER_OVERFLOW`) returns a code
other than `NO_ERROR`, and the code it carries is always that final
return code; and on every path — the raising ones included — every
buffer the function allocated has already been freed at exit. -/
theorem get_adapters_info_error_iff (env : AdapterEnv) :
    ((get_adapters_info env).1 = CyOutcome.memoryError ↔
        env.firstAllocOk = false ∨
          (env.firstRet = ERROR_BUFFER_OVERFLOW ∧
            env.secondAllocOk = false)) ∧
      ((get_adapters_info env).1 = CyOutcome.osError (finalRet env) ↔
        (env.firstAllocOk = true ∧
          (env.firstRet = ERROR_BUFFER_OVERFLOW → env.secondAllocOk = true) ∧
          finalRet env ≠ NO_ERROR)) ∧
      (∀ c, (get_adapters_info env).1 = CyOutcome.osError c →
        c = finalRet env) ∧
      (get_adapters_info env).2 = 0 := by
  obtain ⟨a1, a2, r1, r2⟩ := env
  cases a1 <;> cases a2 <;>
    by_cases h1 : r1 = ERROR_BUFFER_OVERFLOW <;>
    by_cases hn1 : r1 = NO_ERROR <;>
    by_cases hn2 : r2 = NO_ERROR <;>
    simp_all [get_adapters_info, cyMalloc, cyFree, finalRet, NO_ERROR,
      ERROR_BUFFER_OVERFLOW]


/-- Witness for C10: on the retry path with a failing second call
(code 5), the outcome is `OSError` with that final code and no live
buffer remains. -/
theorem get_adapters_info_error_iff_witness :
    (get_adapters_info (AdapterEnv.mk true true 111 5)).1 =
        CyOutcome.osError (finalRet (AdapterEnv.mk true true 111 5)) ∧
      (5 : Nat) = finalRet (AdapterEnv.mk true true 111 5) ∧
      (get_adapters_info (AdapterEnv.mk true true 111 5)).2 = 0 :=
  ⟨((get_adapters_info_error_iff (AdapterEnv.mk true true 111 5)).2.1).mpr
      ⟨rfl, fun _ => rfl, by decide⟩,
    (get_adapters_info_error_iff (AdapterEnv.mk true true 111 5)).2.2.1 5
      (by decide),
    (get_adapters_info_error_iff (AdapterEnv.mk true true 111 5)).2.2.2⟩

end CyGetAdapterInfo
